import Mathlib

set_option maxRecDepth 8192

/-!
Verification of the evalml repository's CI configuration: the release-notes
gate workflow (`.github/workflows/release_notes_updated.yml`), the minimum
dependency unit-test workflow, and the library surface consumed by the
text-input demonstration notebook (`docs/source/demos/text_input.ipynb`).

Branch names and file contents are embedded as `List Char`; pull-request
numbers as `Nat` together with their decimal rendering, since GitHub
substitutes the number textually into the shell script.
-/

/-! ## Character classes of the shell regular expressions -/

/-- The bracket expression `[0-9.]` of the `release_v` pattern. -/
def isDigitDotChar (c : Char) : Bool := c.isDigit || c == '.'

/-- The bracket expression `[a-zA-Z0-9]` of the dependency-update patterns. -/
def isAlnumChar (c : Char) : Bool := c.isDigit || c.isAlpha

/-! ## List-of-characters helpers -/

/-- `startsWithL pat s` : `pat` is a prefix of `s`. -/
def startsWithL : List Char → List Char → Bool
  | [], _ => true
  | _ :: _, [] => false
  | p :: ps, c :: cs => p == c && startsWithL ps cs

/-- `occursIn pat s` : `pat` occurs as a contiguous substring of `s`
(the semantics of a fixed-string `grep` match against the whole input). -/
def occursIn (pat : List Char) : List Char → Bool
  | [] => startsWithL pat []
  | c :: cs => startsWithL pat (c :: cs) || occursIn pat cs

/-! ## `expr match` on the three branch patterns

Each pattern of the workflow is a literal followed by a single bracket
expression repeated with `\+` (one or more) or `*` (zero or more).
`expr match STRING REGEX` anchors the basic regular expression at the start
of STRING and prints the number of characters matched, `0` on no match. -/

/-- `expr match s "lit[cls]\+"` (when `requireOne`) or `expr match s "lit[cls]*"`:
the number of characters of `s` matched by the anchored pattern. -/
def exprMatchLitRun (lit : List Char) (cls : Char → Bool) (requireOne : Bool)
    (s : List Char) : Nat :=
  if startsWithL lit s then
    let run := ((s.drop lit.length).takeWhile cls).length
    if requireOne && run == 0 then 0 else lit.length + run
  else 0

/-- `expr match "$ref" "release_v[0-9.]\+"`. -/
def matchReleaseV (b : List Char) : Nat :=
  exprMatchLitRun ("release_v").data isDigitDotChar true b

/-- `expr match "$ref" "latest-dep-update-[a-zA-Z0-9]*"`. -/
def matchLatestDepUpdate (b : List Char) : Nat :=
  exprMatchLitRun ("latest-dep-update-").data isAlnumChar false b

/-- `expr match "$ref" "min-dep-update-[a-zA-Z0-9]*"`. -/
def matchMinDepUpdate (b : List Char) : Nat :=
  exprMatchLitRun ("min-dep-update-").data isAlnumChar false b

/-- The head branch name is exempt from the release-notes check: one of the
three `[[ $(expr match ...) -gt 0 ]]` guards of the `Release notes added`
step holds. -/
def branchExempt (b : List Char) : Bool :=
  decide (0 < matchReleaseV b) || decide (0 < matchLatestDepUpdate b) ||
    decide (0 < matchMinDepUpdate b)

/-! ## The pull-request marker and the `Release notes added` step -/

/-- Fuel-driven digit extraction: the decimal digits of `n`, most
significant first, empty on `n = 0`; `fuel ≥ n` suffices. -/
def decDigitsRec : Nat → Nat → List Char
  | 0, _ => []
  | fuel + 1, n =>
      if n = 0 then [] else decDigitsRec fuel (n / 10) ++ [Nat.digitChar (n % 10)]

/-- Decimal rendering of a natural number, most significant digit first,
as substituted textually by GitHub for `github.event.number`. -/
def decDigits (n : Nat) : List Char :=
  if n = 0 then [('0' : Char)] else decDigitsRec n n

/-- The literal `grep` pattern of the step: `:pr:` followed by the
pull-request number between backticks. -/
def prMarker (n : Nat) : List Char :=
  (":pr:`").data ++ decDigits n ++ ("`").data

/-- `grep` finds the marker for pull request `n` in the release-notes file. -/
def containsMarker (file : List Char) (n : Nat) : Bool :=
  occursIn (prMarker n) file

/-- Exit status of the `Release notes added` step: each exemption guard
runs `exit 0`; otherwise the status of the step is that of
`cat docs/source/release_notes.rst | grep ":pr:\x60N\x60"`,
i.e. `0` when the marker occurs in the file and `1` when it does not. -/
def releaseNotesStepExit (branch : List Char) (n : Nat) (file : List Char) : Nat :=
  if 0 < matchReleaseV branch then 0
  else if 0 < matchLatestDepUpdate branch then 0
  else if 0 < matchMinDepUpdate branch then 0
  else if containsMarker file n then 0 else 1

/-- The `Debug PR type` step: the same three guards select a classification
message, every arm only echoes, and the final `echo "PR #: ..."` runs after
the `fi`; the step's exit status is that of the last `echo`, namely `0`.
Returns (echoed lines, exit status). -/
def debugStep (branch : List Char) (prNumber : Nat) : List String × Nat :=
  let msg :=
    if 0 < matchReleaseV branch then "This is a release PR"
    else if 0 < matchLatestDepUpdate branch then "This is a latest dependency update PR"
    else if 0 < matchMinDepUpdate branch then "This is a minimum dependency update PR"
    else "This is a regular PR"
  ([msg, "PR #: " ++ Nat.repr prNumber], 0)

/-! ## Workflow trigger declarations (`on:` blocks) -/

structure PullRequestTrigger where
  types : List String
deriving DecidableEq

structure PushTrigger where
  branches : List String
deriving DecidableEq

structure WorkflowTriggers where
  pullRequest : Option PullRequestTrigger
  push : Option PushTrigger
deriving DecidableEq

/-- `on:` block of the unit-test workflow (`src/unnamed/part_000`, lines 3-8). -/
def unitTestWorkflowOn : WorkflowTriggers :=
  { pullRequest := some ⟨["opened", "synchronize"]⟩
    push := some ⟨["main"]⟩ }

/-- `on:` block of `release_notes_updated.yml` (lines 3-5): only
`pull_request` with types `opened` and `synchronize`; no `push` block. -/
def releaseNotesWorkflowOn : WorkflowTriggers :=
  { pullRequest := some ⟨["opened", "synchronize"]⟩
    push := none }

/-- The CI workflows present in the repository, with their triggers. -/
def ciWorkflows : List (String × WorkflowTriggers) :=
  [("Unit tests, linux, min dependencies", unitTestWorkflowOn),
   ("Release notes updated", releaseNotesWorkflowOn)]

/-! ## The unit-test workflow matrix -/

/-- `matrix.python_version` axis. -/
def pythonVersions : List String := ["3.7"]

/-- `matrix.command` axis. -/
def commandTargets : List String :=
  ["git-test-automl", "git-test-modelunderstanding", "git-test-other", "git-test-dask"]

/-- The matrix product: one job instance per (python_version, command) pair. -/
def matrixJobs : List (String × String) :=
  pythonVersions.flatMap (fun v => commandTargets.map (fun c => (v, c)))

/-- `strategy.fail-fast` of the unit-test workflow. -/
def strategyFailFast : Bool := false

/-- The `run:` scripts (or `uses:` actions) of the six steps of one
unit-test matrix job, in order, parameterized by the matrix values. -/
def unitTestJobSteps (pv cmd : String) : List String :=
  [ "uses actions/setup-python@v2 with python-version: " ++ pv,
    "uses actions/checkout@v2 with head ref and repo, fetch-depth: 2",
    "sudo apt update && sudo apt install -y graphviz",
    "pip install virtualenv && virtualenv test_python -q && source test_python/bin/activate && python -m pip install --upgrade pip -q",
    "source test_python/bin/activate && pip install -e . --no-dependencies && pip install -r minimum_test_requirements.txt -r minimum_core_requirements.txt -r minimum_requirements.txt",
    "source test_python/bin/activate && make " ++ cmd ]

/-- Modelled from the spec: the CI runner's strategy-matrix execution,
absent from src/ (the workflow file only declares `fail-fast`).  The spec
says matrix instances run independently, stateless and non-communicating;
with fail-fast a failing instance cancels the instances not yet started
(outcome `none`), without fail-fast every instance runs and reports its own
exit status. -/
def runMatrixSeq (failFast : Bool) (exitOf : String × String → Nat) :
    List (String × String) → List ((String × String) × Option Nat)
  | [] => []
  | j :: rest =>
      (j, some (exitOf j)) ::
        (if failFast && exitOf j != 0 then rest.map (fun k => (k, none))
         else runMatrixSeq failFast exitOf rest)

/-! ## The demonstration notebook's evalml surface -/

/-- The evalml library operations invoked by the code cells of
`docs/source/demos/text_input.ipynb`, in order of first appearance. -/
def notebookEvalmlOps : List String :=
  ["split_data", "AutoMLSearch", "search", "rankings", "best_pipeline",
   "describe_pipeline", "graph", "score", "get_core_objectives",
   "infer_feature_types"]

/-- The notebook-consumed library surface exactly as the spec names it:
data-split utility, AutoML search constructor with `search`, `rankings`,
`best_pipeline`, `describe_pipeline`, `score`, and feature-type inference. -/
def specNotebookSurface : List String :=
  ["split_data", "AutoMLSearch", "search", "rankings", "best_pipeline",
   "describe_pipeline", "score", "infer_feature_types"]

/-! ## Run environment of the release-notes step -/

/-- The data available to a run of the `Release notes added` step.  The
step's script textually references only the head ref, the event number and
the release-notes file; the checkout parameters are part of the job but not
of the step's script. -/
structure ReleaseNotesEnv where
  headRef : List Char
  prNumber : Nat
  releaseNotesFile : List Char
  headRepoFullName : List Char

/-- Exit status of the `Release notes added` step in a full environment. -/
def releaseNotesStepExitEnv (e : ReleaseNotesEnv) : Nat :=
  releaseNotesStepExit e.headRef e.prNumber e.releaseNotesFile

/-- The backtick character (code point 96) delimiting the number in the
`grep` pattern. -/
def tickChar : Char := Char.ofNat 96

/-- A string fully matched by the anchored pattern `lit[cls]\+` (when
`requireOne`) or `lit[cls]*`: the literal followed by a run of class
characters and nothing else.  The exemption patterns of the release-notes
gate match a branch name exactly when such a string is a prefix of it. -/
def fullMatchLitRun (lit : List Char) (cls : Char → Bool) (requireOne : Bool)
    (p : List Char) : Bool :=
  startsWithL lit p && (p.drop lit.length).all cls &&
    (!requireOne || !(p.drop lit.length).isEmpty)

/-! ## Helper lemmas: string matching -/

lemma startsWithL_iff (pat : List Char) : ∀ s : List Char,
    startsWithL pat s = true ↔ ∃ t, s = pat ++ t := by
  induction pat with
  | nil =>
      intro s
      simp [startsWithL]
  | cons p ps ih =>
      intro s
      cases s with
      | nil =>
          simp [startsWithL]
      | cons c cs =>
          simp only [startsWithL, Bool.and_eq_true, beq_iff_eq, ih cs]
          constructor
          · rintro ⟨rfl, t, rfl⟩
            exact ⟨t, rfl⟩
          · rintro ⟨t, ht⟩
            injection ht with h1 h2
            exact ⟨h1.symm, t, h2⟩

lemma startsWithL_self_append (pat t : List Char) :
    startsWithL pat (pat ++ t) = true :=
  (startsWithL_iff pat (pat ++ t)).mpr ⟨t, rfl⟩

lemma occursIn_iff (pat : List Char) : ∀ s : List Char,
    occursIn pat s = true ↔ ∃ u v, s = u ++ pat ++ v := by
  intro s
  induction s with
  | nil =>
      simp only [occursIn, startsWithL_iff]
      constructor
      · rintro ⟨t, ht⟩
        exact ⟨[], t, ht⟩
      · rintro ⟨u, v, huv⟩
        rcases List.append_eq_nil.mp huv.symm with ⟨h1, h2⟩
        rcases List.append_eq_nil.mp h1 with ⟨rfl, rfl⟩
        exact ⟨v, huv⟩
  | cons c cs ih =>
      simp only [occursIn, Bool.or_eq_true, startsWithL_iff, ih]
      constructor
      · rintro (⟨t, ht⟩ | ⟨u, v, huv⟩)
        · exact ⟨[], t, ht⟩
        · exact ⟨c :: u, v, by simp [huv]⟩
      · rintro ⟨u, v, huv⟩
        cases u with
        | nil => exact Or.inl ⟨v, by simpa using huv⟩
        | cons d u =>
            injection huv with h1 h2
            exact Or.inr ⟨u, v, h2⟩

lemma occursIn_self_append (pat u v : List Char) :
    occursIn pat (u ++ pat ++ v) = true :=
  (occursIn_iff pat _).mpr ⟨u, v, rfl⟩

lemma takeWhile_append_all (cls : Char → Bool) (r : List Char) :
    ∀ l : List Char, (∀ c ∈ l, cls c = true) →
      (l ++ r).takeWhile cls = l ++ r.takeWhile cls := by
  intro l
  induction l with
  | nil => intro _; simp
  | cons c cs ih =>
      intro h
      have hc : cls c = true := h c (List.mem_cons_self c cs)
      simp only [List.cons_append, List.takeWhile_cons, hc, if_true]
      rw [ih (fun d hd => h d (List.mem_cons_of_mem c hd))]

/-! ## Helper lemmas: decimal rendering -/

lemma decDigitsRec_zero : ∀ fuel, decDigitsRec fuel 0 = [] := by
  intro fuel
  cases fuel <;> simp [decDigitsRec]

lemma decDigitsRec_eq (n : Nat) : ∀ fuel, 0 < n → n ≤ fuel →
    decDigitsRec fuel n = ((Nat.digits 10 n).map Nat.digitChar).reverse := by
  induction n using Nat.strong_induction_on with
  | _ n ih =>
      intro fuel hn hfuel
      cases fuel with
      | zero => omega
      | succ f =>
          have hne : n ≠ 0 := Nat.pos_iff_ne_zero.mp hn
          rw [Nat.digits_def' (by norm_num : (1:Nat) < 10) hn]
          simp only [decDigitsRec, hne, if_false, List.map_cons, List.reverse_cons]
          by_cases hq : n / 10 = 0
          · rw [hq, decDigitsRec_zero]
            simp
          · have hlt : n / 10 < n := Nat.div_lt_self hn (by norm_num)
            rw [ih (n / 10) hlt f (Nat.pos_iff_ne_zero.mpr hq) (by omega)]

lemma decDigits_eq (n : Nat) : decDigits n =
    if n = 0 then [('0' : Char)]
    else ((Nat.digits 10 n).map Nat.digitChar).reverse := by
  by_cases h : n = 0
  · simp [decDigits, h]
  · simp only [decDigits, h, if_false]
    exact decDigitsRec_eq n n (Nat.pos_iff_ne_zero.mpr h) le_rfl

lemma digitChar_isDigit (d : Nat) (h : d < 10) :
    (Nat.digitChar d).isDigit = true := by
  interval_cases d <;> decide

lemma digitChar_injOn (d e : Nat) (hd : d < 10) (he : e < 10)
    (h : Nat.digitChar d = Nat.digitChar e) : d = e := by
  interval_cases d <;> interval_cases e <;> simp_all <;> revert h <;> decide

lemma mem_decDigits_isDigit (n : Nat) (c : Char) (hc : c ∈ decDigits n) :
    c.isDigit = true := by
  rw [decDigits_eq] at hc
  by_cases h : n = 0
  · simp [h] at hc
    rw [hc]; decide
  · simp only [h, if_false, List.mem_reverse, List.mem_map] at hc
    rcases hc with ⟨d, hd, rfl⟩
    exact digitChar_isDigit d (Nat.digits_lt_base (by norm_num) hd)

lemma map_digitChar_inj : ∀ l l' : List Nat, (∀ d ∈ l, d < 10) →
    (∀ d ∈ l', d < 10) → l.map Nat.digitChar = l'.map Nat.digitChar → l = l' := by
  intro l
  induction l with
  | nil =>
      intro l' _ _ h
      cases l' with
      | nil => rfl
      | cons d l' => simp at h
  | cons d l ih =>
      intro l' hl hl' h
      cases l' with
      | nil => simp at h
      | cons d' l'' =>
          simp only [List.map_cons, List.cons.injEq] at h
          have hd : d = d' := digitChar_injOn d d'
            (hl d (List.mem_cons_self d l)) (hl' d' (List.mem_cons_self d' l'')) h.1
          rw [hd, ih l'' (fun x hx => hl x (List.mem_cons_of_mem d hx))
            (fun x hx => hl' x (List.mem_cons_of_mem d' hx)) h.2]

lemma decDigits_inj (m n : Nat) (h : decDigits m = decDigits n) : m = n := by
  rw [decDigits_eq, decDigits_eq] at h
  by_cases hm : m = 0 <;> by_cases hn : n = 0
  · omega
  · exfalso
    simp only [hm, if_true, hn, if_false] at h
    have h' : (Nat.digits 10 n).map Nat.digitChar = [('0' : Char)] := by
      have := congrArg List.reverse h
      simpa using this.symm
    rcases hd : Nat.digits 10 n with _ | ⟨d, rest⟩
    · rw [hd] at h'; simp at h'
    · rw [hd] at h'
      cases rest with
      | nil =>
          simp only [List.map_cons, List.map_nil, List.cons.injEq] at h'
          have hdlt : d < 10 := Nat.digits_lt_base (by norm_num)
            (by rw [hd]; exact List.mem_cons_self d [])
          have hd0 : d = 0 := digitChar_injOn d 0 hdlt (by norm_num)
            (by rw [h'.1]; rfl)
          have := Nat.ofDigits_digits 10 n
          rw [hd, hd0] at this
          simp [Nat.ofDigits] at this
          omega
      | cons e rest' => simp at h'
  · exfalso
    simp only [hm, if_false, hn, if_true] at h
    have h' : (Nat.digits 10 m).map Nat.digitChar = [('0' : Char)] := by
      have := congrArg List.reverse h
      simpa using this
    rcases hd : Nat.digits 10 m with _ | ⟨d, rest⟩
    · rw [hd] at h'; simp at h'
    · rw [hd] at h'
      cases rest with
      | nil =>
          simp only [List.map_cons, List.map_nil, List.cons.injEq] at h'
          have hdlt : d < 10 := Nat.digits_lt_base (by norm_num)
            (by rw [hd]; exact List.mem_cons_self d [])
          have hd0 : d = 0 := digitChar_injOn d 0 hdlt (by norm_num)
            (by rw [h'.1]; rfl)
          have := Nat.ofDigits_digits 10 m
          rw [hd, hd0] at this
          simp [Nat.ofDigits] at this
          omega
      | cons e rest' => simp at h'
  · simp only [hm, if_false, hn, if_false] at h
    have h' := congrArg List.reverse h
    simp only [List.reverse_reverse] at h'
    have := map_digitChar_inj (Nat.digits 10 m) (Nat.digits 10 n)
      (fun d hd => Nat.digits_lt_base (by norm_num) hd)
      (fun d hd => Nat.digits_lt_base (by norm_num) hd) h'
    calc m = Nat.ofDigits 10 (Nat.digits 10 m) := (Nat.ofDigits_digits 10 m).symm
    _ = Nat.ofDigits 10 (Nat.digits 10 n) := by rw [this]
    _ = n := Nat.ofDigits_digits 10 n

/-! ## Helper lemmas: the marker determines the pull-request number -/

lemma tick_data : ("`").data = [tickChar] := by decide

lemma hdr_data : (":pr:`").data = [':', 'p', 'r', ':', tickChar] := by decide


lemma prMarker_cons (n : Nat) : prMarker n =
    ':' :: 'p' :: 'r' :: ':' :: tickChar :: (decDigits n ++ [tickChar]) := by
  rw [prMarker, hdr_data, tick_data]
  simp

lemma tick_not_digit : tickChar.isDigit = false := by decide

lemma colon_not_mem_decDigits (n : Nat) : (':' : Char) ∉ decDigits n := by
  intro hmem
  have := mem_decDigits_isDigit n ':' hmem
  exact absurd this (by decide)

/-- A run of digit characters closed by a backtick is determined up to the
first backtick: equal such lists have equal digit runs. -/
lemma digitBlock_eq : ∀ (D D' t t' : List Char),
    (∀ c ∈ D, c.isDigit = true) → (∀ c ∈ D', c.isDigit = true) →
    D ++ tickChar :: t = D' ++ tickChar :: t' → D = D' := by
  intro D
  induction D with
  | nil =>
      intro D' t t' _ hD' h
      cases D' with
      | nil => rfl
      | cons c D'' =>
          exfalso
          injection h with h1 _
          have : c.isDigit = true := hD' c (List.mem_cons_self c D'')
          rw [← h1, tick_not_digit] at this
          exact Bool.false_ne_true this
  | cons c D2 ih =>
      intro D' t t' hD hD' h
      cases D' with
      | nil =>
          exfalso
          injection h with h1 _
          have : c.isDigit = true := hD c (List.mem_cons_self c D2)
          rw [h1, tick_not_digit] at this
          exact Bool.false_ne_true this
      | cons c' D'2 =>
          injection h with h1 h2
          rw [h1, ih D'2 t t' (fun x hx => hD x (List.mem_cons_of_mem c hx))
            (fun x hx => hD' x (List.mem_cons_of_mem c' hx)) h2]

/-- An occurrence of the marker for `m` inside the marker for `n` forces
`m = n`: the backticks delimit the number exactly. -/
lemma marker_occurs_eq (m n : Nat)
    (h : occursIn (prMarker m) (prMarker n) = true) : m = n := by
  rcases (occursIn_iff _ _).mp h with ⟨u, v, huv⟩
  rw [prMarker_cons n, prMarker_cons m] at huv
  simp only [List.cons_append, List.nil_append, List.append_assoc] at huv
  rcases u with _ | ⟨c1, _ | ⟨c2, _ | ⟨c3, _ | ⟨c4, _ | ⟨c5, u5⟩⟩⟩⟩⟩
  · -- occurrence at position 0: the digit blocks coincide
    simp only [List.nil_append] at huv
    injection huv with e1 huv; injection huv with e2 huv
    injection huv with e3 huv; injection huv with e4 huv
    injection huv with e5 hblock
    have hD : decDigits n ++ tickChar :: ([] : List Char) =
        decDigits m ++ tickChar :: v := by
      simpa using hblock
    have := digitBlock_eq (decDigits n) (decDigits m) [] v
      (mem_decDigits_isDigit n) (mem_decDigits_isDigit m) hD
    exact (decDigits_inj n m this).symm
  · exfalso
    injection huv with e1 huv; injection huv with e2 _
    exact absurd e2 (by decide)
  · exfalso
    injection huv with e1 huv; injection huv with e2 huv
    injection huv with e3 _
    exact absurd e3 (by decide)
  · exfalso
    injection huv with e1 huv; injection huv with e2 huv
    injection huv with e3 huv; injection huv with e4 huv
    injection huv with e5 _
    exact absurd e5 (by decide)
  · exfalso
    injection huv with e1 huv; injection huv with e2 huv
    injection huv with e3 huv; injection huv with e4 huv
    injection huv with e5 _
    exact absurd e5 (by decide)
  · -- an occurrence strictly inside the digit block is impossible:
    -- the marker contains a colon, the block only digits and backticks
    exfalso
    injection huv with e1 huv; injection huv with e2 huv
    injection huv with e3 huv; injection huv with e4 huv
    injection huv with e5 hblock
    have hmem : (':' : Char) ∈ decDigits n ++ [tickChar] := by
      rw [hblock]
      refine List.mem_append.mpr (Or.inr ?_)
      exact List.mem_cons_self _ _
    rcases List.mem_append.mp hmem with hmem' | hmem'
    · exact colon_not_mem_decDigits n hmem'
    · simp only [List.mem_singleton] at hmem'
      exact absurd hmem' (by decide)

/-! ## Helper lemmas: the exemption guards -/

lemma exprMatchLitRun_pos_req (lit : List Char) (cls : Char → Bool) (s : List Char) :
    0 < exprMatchLitRun lit cls true s ↔
      ∃ c t, s = lit ++ c :: t ∧ cls c = true := by
  constructor
  · intro hpos
    rcases hs : startsWithL lit s with _ | _
    · rw [exprMatchLitRun, hs] at hpos
      simp at hpos
    · rcases (startsWithL_iff lit s).mp hs with ⟨t, rfl⟩
      rw [exprMatchLitRun, hs] at hpos
      simp only [if_true, List.drop_left] at hpos
      cases t with
      | nil => simp at hpos
      | cons c t2 =>
          rcases hc : cls c with _ | _
          · rw [List.takeWhile_cons, hc] at hpos
            simp at hpos
          · exact ⟨c, t2, rfl, hc⟩
  · rintro ⟨c, t, rfl, hc⟩
    rw [exprMatchLitRun, startsWithL_self_append]
    simp only [if_true, List.drop_left, List.takeWhile_cons, hc, if_true]
    simp

lemma exprMatchLitRun_pos_star (lit : List Char) (cls : Char → Bool) (s : List Char)
    (hlit : lit ≠ []) :
    0 < exprMatchLitRun lit cls false s ↔ ∃ t, s = lit ++ t := by
  constructor
  · intro hpos
    rcases hs : startsWithL lit s with _ | _
    · rw [exprMatchLitRun, hs] at hpos
      simp at hpos
    · exact (startsWithL_iff lit s).mp hs
  · rintro ⟨t, rfl⟩
    rw [exprMatchLitRun, startsWithL_self_append]
    have : 0 < lit.length := List.length_pos.mpr hlit
    simp only [Bool.false_and, if_true]
    simp
    omega

lemma matchReleaseV_pos_iff (b : List Char) :
    0 < matchReleaseV b ↔
      ∃ c t, b = ("release_v").data ++ c :: t ∧ isDigitDotChar c = true :=
  exprMatchLitRun_pos_req _ _ _

lemma matchLatestDepUpdate_pos_iff (b : List Char) :
    0 < matchLatestDepUpdate b ↔ ∃ t, b = ("latest-dep-update-").data ++ t :=
  exprMatchLitRun_pos_star _ _ _ (by decide)

lemma matchMinDepUpdate_pos_iff (b : List Char) :
    0 < matchMinDepUpdate b ↔ ∃ t, b = ("min-dep-update-").data ++ t :=
  exprMatchLitRun_pos_star _ _ _ (by decide)

lemma branchExempt_true_iff (b : List Char) : branchExempt b = true ↔
    0 < matchReleaseV b ∨ 0 < matchLatestDepUpdate b ∨ 0 < matchMinDepUpdate b := by
  simp [branchExempt, or_assoc]

lemma branchExempt_false_iff (b : List Char) : branchExempt b = false ↔
    ¬ 0 < matchReleaseV b ∧ ¬ 0 < matchLatestDepUpdate b ∧
      ¬ 0 < matchMinDepUpdate b := by
  simp [branchExempt, not_or, and_assoc]

/-- An exempt branch makes the `Release notes added` step exit `0`,
whatever the pull-request number and the release-notes file. -/
lemma exempt_exit_zero (b : List Char) (hex : branchExempt b = true)
    (n : Nat) (f : List Char) : releaseNotesStepExit b n f = 0 := by
  rcases (branchExempt_true_iff b).mp hex with h | h | h <;>
    simp [releaseNotesStepExit, h]

/-- On a non-exempt branch the step's exit status is that of the `grep`. -/
lemma notExempt_exit (b : List Char) (hex : branchExempt b = false)
    (n : Nat) (f : List Char) :
    releaseNotesStepExit b n f = if containsMarker f n then 0 else 1 := by
  rcases (branchExempt_false_iff b).mp hex with ⟨h1, h2, h3⟩
  rw [releaseNotesStepExit, if_neg h1, if_neg h2, if_neg h3]

lemma fullMatchLitRun_decomp (lit : List Char) (cls : Char → Bool) (ro : Bool)
    (p : List Char) (h : fullMatchLitRun lit cls ro p = true) :
    ∃ d, p = lit ++ d ∧ (∀ c ∈ d, cls c = true) ∧ (ro = true → d ≠ []) := by
  rw [fullMatchLitRun] at h
  simp only [Bool.and_eq_true, Bool.or_eq_true, Bool.not_eq_true'] at h
  rcases h with ⟨⟨hs, hall⟩, hro⟩
  rcases (startsWithL_iff lit p).mp hs with ⟨d, rfl⟩
  rw [List.drop_left] at hall hro
  refine ⟨d, rfl, List.all_eq_true.mp hall, ?_⟩
  intro hro' hd
  rcases hro with hro | hro
  · rw [hro] at hro'
    exact Bool.false_ne_true hro'
  · rw [hd] at hro
    simp at hro

lemma fullMatchLitRun_intro (lit : List Char) (cls : Char → Bool) (ro : Bool)
    (d : List Char) (hall : ∀ c ∈ d, cls c = true) (hro : ro = true → d ≠ []) :
    fullMatchLitRun lit cls ro (lit ++ d) = true := by
  rw [fullMatchLitRun, startsWithL_self_append]
  simp only [List.drop_left, Bool.true_and, Bool.and_eq_true, Bool.or_eq_true,
    Bool.not_eq_true', List.all_eq_true]
  refine ⟨hall, ?_⟩
  cases ro with
  | false => exact Or.inl rfl
  | true =>
      refine Or.inr ?_
      rcases hd : d with _ | ⟨c, d2⟩
      · exact absurd (hro rfl) (by simp [hd])
      · rfl

/-! ## Helper lemmas: matrix execution -/

lemma runMatrixSeq_false (exitOf : String × String → Nat) :
    ∀ l : List (String × String),
      runMatrixSeq false exitOf l = l.map (fun j => (j, some (exitOf j))) := by
  intro l
  induction l with
  | nil => rfl
  | cons j rest ih => simp [runMatrixSeq, ih]

/-! ## The claims -/

/-- Claim C1: for a pull request whose head branch matches none of the three
exemption patterns, the `Release notes added` step exits nonzero if and only
if `docs/source/release_notes.rst` does not contain the literal marker for
the pull-request number; when the marker is present the step exits zero. -/
theorem claim_C1 (b : List Char) (n : Nat) (f : List Char)
    (hex : branchExempt b = false) :
    (releaseNotesStepExit b n f ≠ 0 ↔ containsMarker f n = false) ∧
    (containsMarker f n = true → releaseNotesStepExit b n f = 0) := by
  rw [notExempt_exit b hex n f]
  constructor
  · rcases hm : containsMarker f n with _ | _ <;> simp
  · intro hm
    rw [if_pos hm]

theorem claim_C1_witness :
    releaseNotesStepExit ("feature-swl").data 42 ((":pr:`42` add feature").data) = 0 :=
  (claim_C1 ("feature-swl").data 42 ((":pr:`42` add feature").data) (by decide)).2
    (by decide)

/-- Claim C2: exactly three branch-name classes are exempt — names beginning
with `release_v` followed by at least one digit or dot, with
`latest-dep-update-` followed by a (possibly empty) run of alphanumerics,
and with `min-dep-update-` likewise — and on every exempt branch the
`Release notes added` step exits `0` with the same outcome whatever the
release-notes file contains, never inspecting it. -/
theorem claim_C2 :
    (∀ b : List Char, branchExempt b = true ↔
      ((∃ c t, b = ("release_v").data ++ c :: t ∧ isDigitDotChar c = true) ∨
       (∃ t, b = ("latest-dep-update-").data ++ t) ∨
       (∃ t, b = ("min-dep-update-").data ++ t))) ∧
    (∀ (b : List Char) (n : Nat) (f f' : List Char), branchExempt b = true →
      releaseNotesStepExit b n f = 0 ∧
        releaseNotesStepExit b n f = releaseNotesStepExit b n f') := by
  constructor
  · intro b
    rw [branchExempt_true_iff, matchReleaseV_pos_iff, matchLatestDepUpdate_pos_iff,
      matchMinDepUpdate_pos_iff]
  · intro b n f f' hex
    exact ⟨exempt_exit_zero b hex n f,
      (exempt_exit_zero b hex n f).trans (exempt_exit_zero b hex n f').symm⟩

theorem claim_C2_witness :
    releaseNotesStepExit ("release_v0.20.0").data 7 [] = 0 :=
  (claim_C2.2 ("release_v0.20.0").data 7 [] ((":x").data) (by decide)).1

/-- Claim C3: on a non-exempt branch the check passes only for a marker
carrying exactly the pull-request number: the backticks of the `grep`
pattern delimit the number, so the marker for any different number (such as
`150` or `115` against `15`) never satisfies the check. -/
theorem claim_C3 (n n' : Nat) :
    (containsMarker (prMarker n') n = true → n = n') ∧
    (∀ b : List Char, branchExempt b = false →
      (releaseNotesStepExit b n (prMarker n') = 0 ↔ n = n')) := by
  constructor
  · intro h
    exact marker_occurs_eq n n' h
  · intro b hb
    rw [notExempt_exit b hb]
    constructor
    · rcases hm : containsMarker (prMarker n') n with _ | _
      · intro h
        simp at h
      · intro _
        exact marker_occurs_eq n n' hm
    · rintro rfl
      have hocc : containsMarker (prMarker n) n = true := by
        have := occursIn_self_append (prMarker n) [] []
        simpa [containsMarker] using this
      rw [if_pos hocc]

theorem claim_C3_witness :
    releaseNotesStepExit ("feature-x").data 15 (prMarker 15) = 0 :=
  ((claim_C3 15 15).2 ("feature-x").data (by decide)).mpr rfl

/-- Claim C4: the unit-test matrix is exactly
{3.7} x {git-test-automl, git-test-modelunderstanding, git-test-other,
git-test-dask}: four job instances, and the final step of each instance
runs `make` on that instance's command value. -/
theorem claim_C4 :
    matrixJobs = [("3.7", "git-test-automl"), ("3.7", "git-test-modelunderstanding"),
      ("3.7", "git-test-other"), ("3.7", "git-test-dask")] ∧
    matrixJobs.length = 4 ∧
    matrixJobs.map (fun j => (unitTestJobSteps j.1 j.2).getLast?) =
      matrixJobs.map (fun j =>
        some ("source test_python/bin/activate && make " ++ j.2)) := by
  refine ⟨rfl, rfl, rfl⟩

/-- Claim C5 (amended): the unit-test workflow declares both the
pull_request (opened, synchronize) trigger and the push-to-main trigger,
but the release-notes workflow declares only the pull_request trigger and
no push trigger. -/
theorem claim_C5 :
    unitTestWorkflowOn.pullRequest = some ⟨["opened", "synchronize"]⟩ ∧
    unitTestWorkflowOn.push = some ⟨["main"]⟩ ∧
    releaseNotesWorkflowOn.pullRequest = some ⟨["opened", "synchronize"]⟩ ∧
    releaseNotesWorkflowOn.push = none :=
  ⟨rfl, rfl, rfl, rfl⟩

/-- Claim C5, counterexample to the claim as stated: the release-notes
workflow is a CI workflow of the repository yet declares no push trigger,
so not every CI workflow declares both trigger kinds. -/
theorem claim_C5_cex :
    ("Release notes updated", releaseNotesWorkflowOn) ∈ ciWorkflows ∧
    releaseNotesWorkflowOn.push = none := by
  refine ⟨?_, rfl⟩
  simp [ciWorkflows]

/-- Claim C6 (amended): the evalml operations invoked by the notebook are
the spec-named surface together with `get_core_objectives` (used to build
the scoring objectives) and the pipeline `graph` operation. -/
theorem claim_C6 (op : String) :
    op ∈ notebookEvalmlOps ↔
      (op ∈ specNotebookSurface ∨ op = "get_core_objectives" ∨ op = "graph") := by
  simp only [notebookEvalmlOps, specNotebookSurface, List.mem_cons,
    List.not_mem_nil, or_false]
  tauto

/-- Claim C6, counterexample to the claim as stated: the notebook invokes
`evalml.objectives.get_core_objectives`, an evalml library operation the
spec's named surface does not contain. -/
theorem claim_C6_cex :
    "get_core_objectives" ∈ notebookEvalmlOps ∧
      "get_core_objectives" ∉ specNotebookSurface := by
  constructor
  · simp [notebookEvalmlOps]
  · simp [specNotebookSurface]

/-- Claim C7: the failing `grep` is the only scripted error path of the
release-notes workflow: the `Debug PR type` step exits `0` on every head
branch name, and a nonzero exit of the `Release notes added` step can only
arise with no exemption matched and the marker absent from the file. -/
theorem claim_C7 (b : List Char) (n : Nat) :
    (debugStep b n).2 = 0 ∧
    (∀ f : List Char, releaseNotesStepExit b n f ≠ 0 →
      branchExempt b = false ∧ containsMarker f n = false) := by
  refine ⟨rfl, ?_⟩
  intro f hne
  rcases hex : branchExempt b with _ | _
  · refine ⟨rfl, ?_⟩
    rw [notExempt_exit b hex n f] at hne
    rcases hm : containsMarker f n with _ | _
    · rfl
    · rw [if_pos hm] at hne
      exact absurd rfl hne
  · exact absurd (exempt_exit_zero b hex n f) hne

theorem claim_C7_witness :
    (debugStep ("feature-x").data 7).2 = 0 ∧
      (branchExempt ("feature-x").data = false ∧ containsMarker [] 7 = false) :=
  ⟨(claim_C7 ("feature-x").data 7).1,
    (claim_C7 ("feature-x").data 7).2 [] (by decide)⟩

/-- Claim C8: exemption matching is anchored at the start of the branch
name: a branch is exempt exactly when one of the three patterns fully
matches a non-empty prefix of it, and a branch that contains an exemption
pattern other than at position 0, such as `fix-release_v1.0`, is not
exempt. -/
theorem claim_C8 :
    (∀ b : List Char, branchExempt b = true ↔
      ∃ p q : List Char, b = p ++ q ∧ p ≠ [] ∧
        (fullMatchLitRun ("release_v").data isDigitDotChar true p = true ∨
         fullMatchLitRun ("latest-dep-update-").data isAlnumChar false p = true ∨
         fullMatchLitRun ("min-dep-update-").data isAlnumChar false p = true)) ∧
    branchExempt ("fix-release_v1.0").data = false := by
  constructor
  · intro b
    constructor
    · intro hex
      rcases (branchExempt_true_iff b).mp hex with h | h | h
      · rcases (matchReleaseV_pos_iff b).mp h with ⟨c, t, rfl, hc⟩
        refine ⟨("release_v").data ++ (c :: t).takeWhile isDigitDotChar,
          (c :: t).dropWhile isDigitDotChar, ?_, by simp, Or.inl ?_⟩
        · rw [List.append_assoc, List.takeWhile_append_dropWhile]
        · refine fullMatchLitRun_intro _ _ _ _ ?_ ?_
          · intro x hx
            exact List.mem_takeWhile_imp hx
          · intro _
            rw [List.takeWhile_cons, hc]
            simp
      · rcases (matchLatestDepUpdate_pos_iff b).mp h with ⟨t, rfl⟩
        refine ⟨("latest-dep-update-").data, t, rfl, by simp, Or.inr (Or.inl ?_)⟩
        have := fullMatchLitRun_intro ("latest-dep-update-").data isAlnumChar false
          [] (by simp) (by simp)
        simpa using this
      · rcases (matchMinDepUpdate_pos_iff b).mp h with ⟨t, rfl⟩
        refine ⟨("min-dep-update-").data, t, rfl, by simp, Or.inr (Or.inr ?_)⟩
        have := fullMatchLitRun_intro ("min-dep-update-").data isAlnumChar false
          [] (by simp) (by simp)
        simpa using this
    · rintro ⟨p, q, rfl, hne, hfull⟩
      rw [branchExempt_true_iff]
      rcases hfull with hfull | hfull | hfull
      · rcases fullMatchLitRun_decomp _ _ _ _ hfull with ⟨d, rfl, hall, hone⟩
        rcases hd : d with _ | ⟨c, d2⟩
        · exact absurd (hone rfl) (by simp [hd])
        · refine Or.inl ((matchReleaseV_pos_iff _).mpr ⟨c, d2 ++ q, ?_,
            hall c (by rw [hd]; exact List.mem_cons_self c d2)⟩)
          simp
      · rcases fullMatchLitRun_decomp _ _ _ _ hfull with ⟨d, rfl, _, _⟩
        refine Or.inr (Or.inl ((matchLatestDepUpdate_pos_iff _).mpr ⟨d ++ q, ?_⟩))
        simp
      · rcases fullMatchLitRun_decomp _ _ _ _ hfull with ⟨d, rfl, _, _⟩
        refine Or.inr (Or.inr ((matchMinDepUpdate_pos_iff _).mpr ⟨d ++ q, ?_⟩))
        simp
  · decide

/-- Claim C9: the unit-test workflow declares `fail-fast: false`, so the
four matrix instances run independently: every instance is invoked and
reports its own exit status, and no instance's invocation or outcome
depends on any other instance's result. -/
theorem claim_C9 :
    strategyFailFast = false ∧
    ∀ exitOf : String × String → Nat,
      runMatrixSeq strategyFailFast exitOf matrixJobs =
        matrixJobs.map (fun j => (j, some (exitOf j))) := by
  refine ⟨rfl, ?_⟩
  intro exitOf
  exact runMatrixSeq_false exitOf matrixJobs

/-- Claim C10: the outcome of the `Release notes added` step is a
deterministic function of the head branch name, the pull-request number and
the release-notes file content: two runs agreeing on those three inputs
produce the same exit status, whatever else (such as the head repository
name) differs between them. -/
theorem claim_C10 (e1 e2 : ReleaseNotesEnv) (h1 : e1.headRef = e2.headRef)
    (h2 : e1.prNumber = e2.prNumber)
    (h3 : e1.releaseNotesFile = e2.releaseNotesFile) :
    releaseNotesStepExitEnv e1 = releaseNotesStepExitEnv e2 := by
  rw [releaseNotesStepExitEnv, releaseNotesStepExitEnv, h1, h2, h3]

theorem claim_C10_witness :
    releaseNotesStepExitEnv
      ⟨("feature-a").data, 3, ((":pr:`3`").data), ("evalml/evalml").data⟩ =
    releaseNotesStepExitEnv
      ⟨("feature-a").data, 3, ((":pr:`3`").data), ("fork/evalml").data⟩ :=
  claim_C10 _ _ rfl rfl rfl
